import Mathlib

/-!
Shallow embedding of the quiz backend, a two-player trivia server.
The file `src/app.js` is the current server; the files
`src/unnamed/part_000` ... `part_004` are earlier variants of the same
server that remain part of the repository.  Definitions suffixed `P0`
embed the `part_000` variant; everything else embeds `app.js`.

Conventions of the embedding:
* JS `null`/missing values become `Option`;
* JS numbers that only ever hold integers become `Nat` or `Int`
  (`currentQuestionIndex` starts at `-1`, so it is an `Int`);
* the in-memory `rooms` object is modelled one room slot at a time
  (`Option Room`), since every handler mutates a single addressed room;
* `setTimeout`/`clearTimeout` round timers are modelled by a stored
  timer id plus a supply of fresh ids (`Sched`); a callback whose timer
  was cancelled never runs, which the `timerFire` id check captures;
* emitted socket errors are the exact message strings of the source.
-/

namespace Quiz

/-- Room lifecycle status, the `status` field of a room. -/
inductive Status
  | waiting
  | playing
  | finished
deriving DecidableEq, Repr

/-- A player record as stored in `room.players` in `app.js`.  The
transport-level `socketId` bookkeeping is not modelled: no claim observes
it, and re-attaching a socket changes no game state. -/
structure Player where
  id : String
  username : String
  score : Nat
  hasAnsweredCurrentRound : Bool
deriving DecidableEq, Repr

/-- A generated quiz question, `app.js` shape: one correct answer and the
list of four options. -/
structure Question where
  question : String
  correctAnswer : String
  answers : List String
deriving DecidableEq, Repr

/-- One entry of `room.answersReceived` in `app.js`. -/
structure AnswerRec where
  answer : String
  score : Nat
  timestamp : Nat
deriving DecidableEq, Repr

/-- A room object of `app.js`.  `roundTimerId` stores the id of the armed
round timer (the `setTimeout` handle), `none` when no timer is pending. -/
structure Room where
  roomId : String
  hostId : Option String
  players : List Player
  status : Status
  currentRound : Nat
  maxRounds : Nat
  currentQuestionIndex : Int
  questions : List Question
  roundStartTime : Option Nat
  answersReceived : List (String × AnswerRec)
  difficulty : String
  roundTimerId : Option Nat
deriving DecidableEq, Repr

/-- The five built-in questions returned by the catch branch of
`generateQuizQuestions` in `app.js` when the AI call fails. -/
def fallbackQuestions : List Question :=
  [ { question := "What is the capital of Japan?",
      correctAnswer := "Tokyo",
      answers := ["Tokyo", "Kyoto", "Osaka", "Seoul"] },
    { question := "Which animal lays eggs?",
      correctAnswer := "Chicken",
      answers := ["Cow", "Chicken", "Dog", "Cat"] },
    { question := "How many colors are in a rainbow?",
      correctAnswer := "Seven",
      answers := ["Five", "Six", "Seven", "Eight"] },
    { question := "What is the largest ocean on Earth?",
      correctAnswer := "Pacific Ocean",
      answers := ["Atlantic Ocean", "Indian Ocean", "Arctic Ocean", "Pacific Ocean"] },
    { question := "What shape is a stop sign?",
      correctAnswer := "Octagon",
      answers := ["Circle", "Square", "Octagon", "Triangle"] } ]

/-- `generateQuizQuestions` in `app.js`: the external provider call either
yields a parsed question list (`some qs`) or throws (`none`); on failure
the built-in fallback list is returned, so this function itself never
fails. -/
def generateQuizQuestions (provider : Option (List Question)) : List Question :=
  match provider with
  | some qs => qs
  | none => fallbackQuestions

/-- The `createRoom` socket handler of `app.js`: authentication and
difficulty guards, question generation, then insertion of the fully-built
room.  Returns the room that is inserted into `rooms`, or the emitted
error message; on `Except.error` nothing is inserted. -/
def createRoom (userId username difficulty : Option String)
    (provider : Option (List Question)) (roomId : String) : Except String Room :=
  match userId, username with
  | some uid, some un =>
    match difficulty with
    | none => .error "Difficulty is required to create a room."
    | some diff =>
      let questions := generateQuizQuestions provider
      if questions.length = 0 then
        .error "Failed to create room: Failed to generate questions. Please try again."
      else
        .ok { roomId := roomId, hostId := some uid,
              players := [{ id := uid, username := un, score := 0,
                            hasAnsweredCurrentRound := false }],
              status := .waiting, currentRound := 0, maxRounds := questions.length,
              currentQuestionIndex := -1, questions := questions,
              roundStartTime := none, answersReceived := [],
              difficulty := diff, roundTimerId := none }
  | _, _ => .error "Authentication required to create a room."

/-- The `startGame` socket handler of `app.js`; `tid` is the `setTimeout`
id armed for the first round. -/
def startGame (r : Room) (userId : String) (now tid : Nat) : Except String Room :=
  if r.hostId ≠ some userId then
    .error "Only the host can start the game."
  else if r.players.length < 2 then
    .error "Need at least 2 players to start the game."
  else if r.status ≠ .waiting then
    .error "Game has already started or finished."
  else
    .ok { r with
      status := .playing, currentRound := 1, currentQuestionIndex := 0,
      roundStartTime := some now, answersReceived := [],
      players := r.players.map
        (fun p => { p with score := 0, hasAnsweredCurrentRound := false }),
      roundTimerId := some tid }

/-- Body of the `joinRoom` socket handler of `app.js` on a found room: an
already-joined user only re-attaches a socket (no game-state change in
this model), a full room or a started room rejects, otherwise the player
is appended to the join-ordered list. -/
def joinRoom (r : Room) (userId username : String) : Room :=
  if r.players.any (fun p => p.id = userId) then r
  else if 2 ≤ r.players.length then r
  else if r.status ≠ .waiting then r
  else { r with players := r.players ++
          [{ id := userId, username := username, score := 0,
             hasAnsweredCurrentRound := false }] }

/-- Update the first player with the given id: add the earned score and
set `hasAnsweredCurrentRound`, the in-place mutation of `submitAnswer`. -/
def setPlayerAnswered : List Player → String → Nat → List Player
  | [], _, _ => []
  | p :: ps, uid, sc =>
    if p.id = uid then
      { p with score := p.score + sc, hasAnsweredCurrentRound := true } :: ps
    else
      p :: setPlayerAnswered ps uid sc

/-- `room.questions[room.currentQuestionIndex]` as an option; a JS index
out of bounds yields `undefined`, here `none`. -/
def questionAt (r : Room) : Option Question :=
  if 0 ≤ r.currentQuestionIndex then r.questions.get? r.currentQuestionIndex.toNat
  else none

/-- `room.answersReceived[userId] = rec`: keyed overwrite in the JS
object, modelled on an association list. -/
def putAnswer (m : List (String × AnswerRec)) (uid : String) (a : AnswerRec) :
    List (String × AnswerRec) :=
  (uid, a) :: m.filter (fun e => e.1 ≠ uid)

/-- The guard-and-score part of the `submitAnswer` socket handler of
`app.js`, before the all-answered fast path.  Returns the updated room,
the `scoreEarned` sent back in `answerSubmittedConfirmation` (`none` when
rejected), and the emitted error message (`none` when accepted).  When
all guards pass but the current question index is out of bounds the JS
handler would throw on `currentQuestion.correctAnswer`; that (unreachable
for rooms the server builds) case returns `(r, none, none)`. -/
def submitAnswer (r : Room) (userId : String) (round : Nat) (answer : String)
    (now : Nat) : Room × Option Nat × Option String :=
  if r.status ≠ .playing ∨ r.currentRound ≠ round then
    (r, none, some "Cannot submit answers for this round/game state.")
  else
    match r.players.find? (fun p => p.id = userId) with
    | none => (r, none, some "Player not found in room.")
    | some p =>
      if p.hasAnsweredCurrentRound then
        (r, none, some "You have already submitted an answer for this question.")
      else
        match questionAt r with
        | none => (r, none, none)
        | some q =>
          let scoreEarned := if answer = q.correctAnswer then 1 else 0
          ({ r with
              players := setPlayerAnswered r.players userId scoreEarned,
              answersReceived := putAnswer r.answersReceived userId
                { answer := answer, score := scoreEarned, timestamp := now } },
            some scoreEarned, none)

/-- The single-threaded server state relevant to one room: the room slot
in `rooms` (`none` once deleted) plus a supply of fresh `setTimeout` ids;
every id ever armed is below `fresh`. -/
structure Sched where
  room : Option Room
  fresh : Nat
deriving DecidableEq, Repr

/-- `moveToNextQuestion` in `app.js`: clears the pending round timer
first (preventing a double advance), then either advances to the next
question, arming a fresh timer, or finishes the game. -/
def moveToNextQuestion (s : Sched) (now : Nat) : Sched :=
  match s.room with
  | none => s
  | some room =>
    let cleared := { room with roundTimerId := none }
    let nextQuestionIndex := cleared.currentQuestionIndex + 1
    if nextQuestionIndex < (cleared.questions.length : Int) ∧
        cleared.currentRound < cleared.maxRounds then
      { room := some { cleared with
          currentQuestionIndex := nextQuestionIndex,
          currentRound := cleared.currentRound + 1,
          roundStartTime := some now,
          answersReceived := [],
          players := cleared.players.map
            (fun p => { p with hasAnsweredCurrentRound := false }),
          roundTimerId := some s.fresh },
        fresh := s.fresh + 1 }
    else
      { room := some { cleared with status := .finished, roundStartTime := none },
        fresh := s.fresh }

/-- A round-timer callback firing with timeout id `tid`.  A callback whose
timer was cancelled with `clearTimeout` never runs, which the
`roundTimerId = some tid` check models; a callback addressing a deleted
room hits the `if (!room) return` guard of `moveToNextQuestion`. -/
def timerFire (s : Sched) (tid : Nat) (now : Nat) : Sched :=
  match s.room with
  | none => s
  | some room =>
    if room.roundTimerId = some tid then moveToNextQuestion s now else s

/-- The full `submitAnswer` socket handler of `app.js`, including the
all-answered fast path that calls `moveToNextQuestion` immediately. -/
def submitAnswerOn (s : Sched) (userId : String) (round : Nat) (answer : String)
    (now : Nat) : Sched × Option Nat × Option String :=
  match s.room with
  | none => (s, none, some "Room not found.")
  | some room =>
    let res := submitAnswer room userId round answer now
    let s1 : Sched := { s with room := some res.1 }
    match res.2.1 with
    | none => (s1, res.2.1, res.2.2)
    | some sc =>
      if res.1.players.all (fun p => p.hasAnsweredCurrentRound) then
        (moveToNextQuestion s1 now, some sc, none)
      else
        (s1, some sc, none)

/-- Events a handler pushes to room members (the subset the claims
observe). -/
inductive PushEvent
  | roomDeleted (roomId message : String)
  | roomState
deriving DecidableEq, Repr

/-- The `leaveRoom` socket handler of `app.js` on a found room: removes
the player (first entry with this id, found via `findIndex` + `splice`),
clears any pending round timer, deletes the room (broadcasting
`roomDeleted`) if nobody remains, otherwise reassigns the host to
`players[0]` when the host left and forces `finished` when a playing room
drops below 2 players.  The `disconnect` handler applies the same
per-room effect. -/
def leaveRoom (r : Room) (userId : String) : Option Room × List PushEvent :=
  if r.players.any (fun p => p.id = userId) then
    let remaining := r.players.eraseP (fun p => p.id = userId)
    if remaining.length = 0 then
      (none, [.roomDeleted r.roomId "Room deleted as all players left."])
    else
      let newHost := if r.hostId = some userId then remaining.head?.map (fun p => p.id)
        else r.hostId
      let newStatus := if r.status = .playing ∧ remaining.length < 2 then Status.finished
        else r.status
      let updated := { r with players := remaining, hostId := newHost,
                              status := newStatus, roundTimerId := none }
      (some updated, [.roomState])
  else
    (some r, [])

/-- One client action addressing a single room slot: the per-room effect
of the `createRoom`, `joinRoom`, `leaveRoom` and `disconnect` handlers of
`app.js` (a disconnect removes the player from the room exactly like a
leave).  A create carries the provider result used to generate the
question list. -/
inductive Op
  | create (userId username : String) (provider : Option (List Question))
  | join (userId username : String)
  | leave (userId : String)
  | disconnect (userId : String)

/-- Step one room slot by one action.  `generateUniqueRoomId` loops until
the generated code is unused among live rooms, so a create never lands on
an occupied slot: there it is a no-op for this room (some other room is
created).  The slot models one fixed room code. -/
def stepOp (s : Option Room) (op : Op) : Option Room :=
  match op with
  | .create uid un provider =>
    match s with
    | some r => some r
    | none =>
      match createRoom (some uid) (some un) (some "easy") provider "ROOM01" with
      | .ok r => some r
      | .error _ => none
  | .join uid un =>
    match s with
    | none => none
    | some r => some (joinRoom r uid un)
  | .leave uid =>
    match s with
    | none => none
    | some r => (leaveRoom r uid).1
  | .disconnect uid =>
    match s with
    | none => none
    | some r => (leaveRoom r uid).1

/-- Run a sequence of actions against an initially empty room slot. -/
def runOps (ops : List Op) : Option Room :=
  ops.foldl stepOp none

/-- `hostUserId` is the id of some current player of the room. -/
def HostOk (r : Room) : Prop :=
  ∃ i, r.hostId = some i ∧ i ∈ r.players.map (fun p => p.id)

/-- The per-room store invariant: a live room holds one or two players and
its host is a current player; an emptied room does not exist (it was
deleted). -/
def RoomInv : Option Room → Prop
  | none => True
  | some r => r.players.length ≤ 2 ∧ r.players ≠ [] ∧ HostOk r

/-- The snapshot `emitRoomState` of `app.js` broadcasts to the room: a
shallow copy of the room with only the internal `roundTimerId` removed;
every other field, the full `questions` list included, is sent. -/
structure PublicRoom where
  roomId : String
  hostId : Option String
  players : List Player
  status : Status
  currentRound : Nat
  maxRounds : Nat
  currentQuestionIndex : Int
  questions : List Question
  roundStartTime : Option Nat
  answersReceived : List (String × AnswerRec)
  difficulty : String
deriving DecidableEq, Repr

/-- `emitRoomState` in `app.js`: the broadcast payload. -/
def emitRoomState (r : Room) : PublicRoom :=
  { roomId := r.roomId, hostId := r.hostId, players := r.players,
    status := r.status, currentRound := r.currentRound,
    maxRounds := r.maxRounds, currentQuestionIndex := r.currentQuestionIndex,
    questions := r.questions, roundStartTime := r.roundStartTime,
    answersReceived := r.answersReceived, difficulty := r.difficulty }

/-- JS `toLowerCase` on the character list of a string. -/
def jsToLower (s : String) : String := ⟨s.data.map Char.toLower⟩

/-- JS `toUpperCase` on the character list of a string. -/
def jsToUpper (s : String) : String := ⟨s.data.map Char.toUpper⟩

/-- JS `trim`: strip whitespace from both ends. -/
def jsTrim (s : String) : String :=
  ⟨((s.data.dropWhile Char.isWhitespace).reverse.dropWhile Char.isWhitespace).reverse⟩

/-- `POST /api/auth/anonymous` in `app.js`.  The user store maps ids to
usernames; `userIdHeader` is the `x-user-id` header and `username` the
request-body field (`none` for a missing or empty value, both falsy in
JS).  Returns the updated store together with the issued id and stored
name, or the 400 error message. -/
def authAnonymous (users : List (String × String)) (userIdHeader : Option String)
    (username : Option String) (freshId : String) :
    Except String (List (String × String) × String × String) :=
  match username with
  | none => .error "Username is required and must be at least 3 characters long."
  | some un =>
    if (jsTrim un).length < 3 then
      .error "Username is required and must be at least 3 characters long."
    else
      match userIdHeader with
      | some uid =>
        if (users.lookup uid).isSome then
          .ok (users.map (fun e => if e.1 = uid then (e.1, jsTrim un) else e),
               uid, jsTrim un)
        else
          .ok ((freshId, jsTrim un) :: users, freshId, jsTrim un)
      | none => .ok ((freshId, jsTrim un) :: users, freshId, jsTrim un)

/-- The room lookup shared by the `joinRoom` handler of `app.js` and
`POST /api/rooms/join` of `part_004`: the supplied code is upper-cased
before the exact-key lookup in `rooms`. -/
def joinLookup (store : List (String × Room)) (roomId : String) : Option Room :=
  (store.find? (fun e => e.1 = jsToUpper roomId)).map (fun e => e.2)

/-- A question of the `part_000` list-answer variant: the prompt plus the
set of correct answers (lower-cased at generation time). -/
structure QuestionL where
  question : String
  answers : List String
deriving DecidableEq, Repr

/-- One entry of `room.answersReceived` in `part_000`. -/
structure AnswerRecL where
  round : Nat
  answers : List String
  score : Nat
deriving DecidableEq, Repr

/-- A room object of the `part_000` variant. -/
structure RoomL where
  roomId : String
  hostId : Option String
  players : List Player
  status : Status
  currentRound : Nat
  maxRounds : Nat
  currentQuestionIndex : Int
  questions : List QuestionL
  currentQuestion : Option QuestionL
  scores : List (String × Nat)
  roundStartTime : Option Nat
  answersReceived : List (String × AnswerRecL)
  difficulty : String
deriving DecidableEq, Repr

/-- `String(a).toLowerCase().trim()`, the normalization the `part_000`
answer endpoint applies to every submitted value. -/
def normalizeAns (s : String) : String := jsTrim (jsToLower s)

/-- The scoring loop of the `part_000` answer endpoint (both the REST
route and its socket twin): normalize each submitted value, then award a
point when the value is in `correctAnswers` and was not matched before
(`matchedAnswers` prevents duplicate scoring). -/
def scoreSubmission (correctAnswers : List String) (answers : List String) : Nat :=
  let submittedAnswers := answers.map normalizeAns
  (submittedAnswers.foldl
    (fun acc submitted =>
      if submitted ∈ correctAnswers ∧ submitted ∉ acc.2 then
        (acc.1 + 1, acc.2 ++ [submitted])
      else acc)
    ((0 : Nat), ([] : List String))).1

/-- Modelled from the spec: the count the claim prescribes, "the number of
distinct normalized (trimmed, case-folded) submitted values that belong to
the correct-answer set, each correct value counted at most once". -/
def specScore (correctAnswers : List String) (answers : List String) : Nat :=
  (((answers.map normalizeAns).toFinset).filter (fun s => s ∈ correctAnswers)).card

/-- `POST /api/rooms/:roomId/start` in `part_000`: only
`status == playing` is rejected, the freshly generated questions are
appended to any existing ones, and play (re)starts from round 1.  Player
scores are not reset. -/
def startGameP0 (r : RoomL) (userId : String) (newQuestions : List QuestionL)
    (now : Nat) : Except String RoomL :=
  if r.hostId ≠ some userId then
    .error "Only the host can start the game."
  else if r.players.length < 2 then
    .error "Need 2 players to start the game."
  else if r.status = .playing then
    .error "Game already in progress."
  else
    let questions := r.questions ++ newQuestions
    .ok { r with
      questions := questions, status := .playing, currentRound := 1,
      currentQuestionIndex := 0, currentQuestion := questions.head?,
      roundStartTime := some now, answersReceived := [],
      players := r.players.map (fun p => { p with hasAnsweredCurrentRound := false }) }

/-- `POST /api/rooms/:roomId/leave` in `part_000`: filter the player out,
delete the room when it empties, otherwise reassign the host to the first
remaining player.  The status is never changed and no round timing is
touched. -/
def leaveRoomP0 (r : RoomL) (userId : String) : Option RoomL :=
  let players := r.players.filter (fun p => p.id ≠ userId)
  if players.length = 0 then none
  else
    let newHost := if r.hostId = some userId then players.head?.map (fun p => p.id)
      else r.hostId
    some { r with players := players, hostId := newHost }

/-! Concrete sample data used by counterexamples and witnesses. -/

/-- A sample question whose correct answer is stored lower-case. -/
def q1 : Question :=
  { question := "What is the capital of France?", correctAnswer := "paris",
    answers := ["paris", "london", "rome", "berlin"] }

/-- A second sample question. -/
def q2 : Question :=
  { question := "Which planet is known as the Red Planet?", correctAnswer := "Mars",
    answers := ["Mars", "Venus", "Jupiter", "Saturn"] }

/-- Sample player, has not answered the current round. -/
def annP : Player :=
  { id := "u1", username := "ann", score := 0, hasAnsweredCurrentRound := false }

/-- Sample player, has not answered the current round. -/
def bobP : Player :=
  { id := "u2", username := "bob", score := 0, hasAnsweredCurrentRound := false }

/-- `annP` after answering the current round. -/
def annAnswered : Player := { annP with hasAnsweredCurrentRound := true }

/-- A playing two-player room on its only question `q1`, round 1. -/
def roomC1 : Room :=
  { roomId := "ROOM01", hostId := some "u1", players := [annP, bobP],
    status := .playing, currentRound := 1, maxRounds := 1,
    currentQuestionIndex := 0, questions := [q1], roundStartTime := some 0,
    answersReceived := [], difficulty := "easy", roundTimerId := some 0 }

/-- A playing two-player room mid-game: two questions, round 1 of 2, `annP`
has already answered, the round timer with id 0 is armed. -/
def wRoom2 : Room :=
  { roomC1 with questions := [q1, q2], maxRounds := 2, players := [annAnswered, bobP] }

/-- Scheduler state holding `wRoom2`; timer id 0 is armed, 1 is fresh. -/
def wS2 : Sched := { room := some wRoom2, fresh := 1 }

/-- A waiting two-player room (not yet started). -/
def wRoom4 : Room := { roomC1 with status := .waiting, roundTimerId := none }

/-- A sample question of the list-answer variant. -/
def qL1 : QuestionL :=
  { question := "List 8 US states that border Canada.",
    answers := ["alaska", "idaho", "maine", "michigan", "minnesota", "montana",
                "new york", "north dakota"] }

/-- A finished two-player room of the `part_000` variant. -/
def roomLC4 : RoomL :=
  { roomId := "ROOM02", hostId := some "u1", players := [annP, bobP],
    status := .finished, currentRound := 5, maxRounds := 5,
    currentQuestionIndex := 4, questions := [qL1], currentQuestion := some qL1,
    scores := [("u1", 3), ("u2", 2)], roundStartTime := none,
    answersReceived := [], difficulty := "medium" }

/-- A playing two-player room of the `part_000` variant. -/
def roomLC7 : RoomL :=
  { roomLC4 with status := .playing, currentRound := 2, roundStartTime := some 0 }

/-- Proof abbreviation: the room produced by the advance branch of
`moveToNextQuestion` from a room that agrees with `r` except for the
player list `ps`, arming timer id `tid`. -/
def advancedRoom (r : Room) (ps : List Player) (now tid : Nat) : Room :=
  { roomId := r.roomId, hostId := r.hostId,
    players := ps.map (fun p => { p with hasAnsweredCurrentRound := false }),
    status := r.status, currentRound := r.currentRound + 1,
    maxRounds := r.maxRounds, currentQuestionIndex := r.currentQuestionIndex + 1,
    questions := r.questions, roundStartTime := some now, answersReceived := [],
    difficulty := r.difficulty, roundTimerId := some tid }

/-- The room built by `createRoom` for host "u1" when the provider
fails. -/
def c3room : Room :=
  { roomId := "ROOM01", hostId := some "u1",
    players := [{ id := "u1", username := "ann", score := 0,
                  hasAnsweredCurrentRound := false }],
    status := .waiting, currentRound := 0, maxRounds := 5,
    currentQuestionIndex := -1, questions := fallbackQuestions,
    roundStartTime := none, answersReceived := [], difficulty := "easy",
    roundTimerId := none }

/-- The room left behind when host "u1" leaves the playing room
`roomC1`. -/
def wRoom7after : Room :=
  { roomC1 with players := [bobP], hostId := some "u2", status := .finished, roundTimerId := none }

/-- A waiting room used to witness a rejected submission. -/
def wRoom5 : Room := { roomC1 with status := .waiting }

/-! ## Theorems -/

/-- Helper: the de-duplicating scoring fold counts, on top of `n`, the
distinct elements of `l` that are in `correctAnswers` and not yet in
`seen`. -/
theorem score_foldl (correctAnswers : List String) (l : List String) :
    ∀ (n : Nat) (seen : List String),
      (l.foldl (fun acc submitted =>
          if submitted ∈ correctAnswers ∧ submitted ∉ acc.2 then
            (acc.1 + 1, acc.2 ++ [submitted]) else acc) (n, seen)).1
        = n + ((l.toFinset.filter
            (fun s => s ∈ correctAnswers ∧ s ∉ seen)).card) := by
  induction l with
  | nil => intro n seen; simp
  | cons a t ih =>
    intro n seen
    rw [List.foldl_cons]
    by_cases h : a ∈ correctAnswers ∧ a ∉ seen
    · rw [if_pos h, ih]
      have hfilter :
          (t.toFinset.filter (fun s => s ∈ correctAnswers ∧ s ∉ seen ++ [a]))
            = (t.toFinset.filter (fun s => s ∈ correctAnswers ∧ s ∉ seen)).erase a := by
        ext s
        simp only [Finset.mem_filter, Finset.mem_erase, List.mem_append,
          List.mem_singleton]
        constructor
        · rintro ⟨hs, hc, hni⟩
          exact ⟨fun he => hni (Or.inr he), hs, hc, fun he => hni (Or.inl he)⟩
        · rintro ⟨hne, hs, hc, hni⟩
          exact ⟨hs, hc, fun he => he.elim hni hne⟩
      rw [hfilter, List.toFinset_cons, Finset.filter_insert, if_pos h]
      by_cases hmem : a ∈ t.toFinset.filter (fun s => s ∈ correctAnswers ∧ s ∉ seen)
      · rw [Finset.insert_eq_self.mpr hmem]
        have := Finset.card_erase_add_one hmem
        omega
      · rw [Finset.card_insert_of_not_mem hmem, Finset.erase_eq_of_not_mem hmem]
        omega
    · rw [if_neg h, ih, List.toFinset_cons, Finset.filter_insert, if_neg h]

/-- C1 (amended): in the `part_000` list-answer endpoint, the returned
`scoreEarned` equals the number of distinct normalized (trimmed,
case-folded) submitted values that belong to the correct-answer set, each
correct value counted at most once regardless of how many times it is
submitted. -/
theorem scoreSubmission_eq_specScore (correctAnswers answers : List String) :
    scoreSubmission correctAnswers answers = specScore correctAnswers answers := by
  simp only [scoreSubmission, specScore]
  rw [score_foldl]
  have hcongr : ∀ s ∈ (answers.map normalizeAns).toFinset,
      ((s ∈ correctAnswers ∧ s ∉ ([] : List String)) ↔ s ∈ correctAnswers) := by
    intro s _
    simp
  rw [Finset.filter_congr hcongr, Nat.zero_add]

/-- C1 (counterexample): in `app.js` the `submitAnswer` handler compares
the raw submitted value to `correctAnswer` with exact, case-sensitive
equality.  The accepted submission "Paris" against correct answer "paris"
returns `scoreEarned = 0`, while the claimed rule (distinct normalized
values in the correct set) prescribes 1. -/
theorem appSubmit_ignores_normalization :
    (submitAnswer roomC1 "u1" 1 "Paris" 5).2.2 = none ∧
    (submitAnswer roomC1 "u1" 1 "Paris" 5).2.1 = some 0 ∧
    specScore [q1.correctAnswer] ["Paris"] = 1 := by
  refine ⟨by decide, by decide, by decide⟩

/-- C1 (witness for the amended theorem): the spec example, submitting
both "paris" and "Paris" against correct set containing "paris", scores
exactly 1 in the list-answer endpoint. -/
theorem scoreSubmission_eq_specScore_witness :
    scoreSubmission ["paris"] ["paris", "Paris"]
      = specScore ["paris"] ["paris", "Paris"] ∧
    scoreSubmission ["paris"] ["paris", "Paris"] = 1 :=
  ⟨scoreSubmission_eq_specScore ["paris"] ["paris", "Paris"], by decide⟩

/-- C3 (counterexample): when the question provider fails, `createRoom`
in `app.js` does not fail with a generation error; it creates the room
with the built-in fallback question set. -/
theorem createRoom_provider_failure_creates_room :
    (createRoom (some "u1") (some "ann") (some "easy") none "ROOM01").isOk = true ∧
    (createRoom (some "u1") (some "ann") (some "easy") none "ROOM01").toOption.map
        Room.questions = some fallbackQuestions := by
  refine ⟨by decide, by decide⟩

/-- C3 (amended): every room `createRoom` actually creates carries the
question list produced by `generateQuizQuestions` — the provider output on
success and the built-in fallback set on failure, one policy applied
uniformly — and that list is never empty; on every error path no room is
inserted (the `Except.error` results carry no room). -/
theorem createRoom_questions_policy (u n d rid : String)
    (provider : Option (List Question)) (r : Room)
    (h : createRoom (some u) (some n) (some d) provider rid = Except.ok r) :
    r.questions = generateQuizQuestions provider ∧ r.questions ≠ [] ∧
    (provider = none → r.questions = fallbackQuestions) ∧
    r.status = .waiting ∧
    r.players = [{ id := u, username := n, score := 0,
                   hasAnsweredCurrentRound := false }] := by
  simp only [createRoom] at h
  split at h
  · exact absurd h (by simp)
  · injection h with h
    subst h
    refine ⟨rfl, ?_, ?_, rfl, rfl⟩
    · intro hnil
      simp_all
    · intro hp
      subst hp
      rfl

/-- C3 (witness): the amended theorem applied to the concrete
provider-failure creation. -/
theorem createRoom_questions_policy_witness :
    (createRoom (some "u1") (some "ann") (some "easy") none "ROOM01"
      = Except.ok c3room) ∧
    c3room.questions = fallbackQuestions :=
  ⟨rfl,
   (createRoom_questions_policy "u1" "ann" "easy" "ROOM01" none c3room rfl).2.2.1 rfl⟩

/-- C8 (code bug): `emitRoomState` in `app.js` strips only the internal
timer id; while the room is playing the broadcast payload still contains
the full `questions` list, correct answers included.  Evaluated at a
concrete playing room, the current correct answer "paris" is in the
payload. -/
theorem emitRoomState_leaks_correct_answers :
    roomC1.status = .playing ∧
    q1.correctAnswer ∈ (emitRoomState roomC1).questions.map Question.correctAnswer := by
  refine ⟨rfl, by decide⟩

/-- C9 (counterexample): registration in `app.js` is not total — a request
with no username, and one whose trimmed username is shorter than 3
characters, are both rejected with a 400 message instead of a fabricated
guest name. -/
theorem authAnonymous_rejects_missing_username :
    authAnonymous [] none none "fresh-1"
      = Except.error "Username is required and must be at least 3 characters long." ∧
    authAnonymous [] none (some "ab") "fresh-1"
      = Except.error "Username is required and must be at least 3 characters long." := by
  refine ⟨rfl, rfl⟩

/-- C9 (amended): once the username passes the length-3 validation,
registration never fails: an absent or unknown candidate id mints the
fresh unique id and stores the trimmed name, a known id keeps its id and
has its display name updated. -/
theorem authAnonymous_characterization (users : List (String × String))
    (userIdHeader : Option String) (un : String) (freshId : String)
    (h : 3 ≤ (jsTrim un).length) :
    (authAnonymous users userIdHeader (some un) freshId).isOk = true ∧
    (∀ uid, userIdHeader = some uid → (users.lookup uid).isSome = true →
      authAnonymous users userIdHeader (some un) freshId
        = .ok (users.map (fun e => if e.1 = uid then (e.1, jsTrim un) else e),
               uid, jsTrim un)) ∧
    (userIdHeader = none →
      authAnonymous users userIdHeader (some un) freshId
        = .ok ((freshId, jsTrim un) :: users, freshId, jsTrim un)) ∧
    (∀ uid, userIdHeader = some uid → (users.lookup uid).isSome = false →
      authAnonymous users userIdHeader (some un) freshId
        = .ok ((freshId, jsTrim un) :: users, freshId, jsTrim un)) := by
  have hlt : ¬ (jsTrim un).length < 3 := Nat.not_lt.mpr h
  refine ⟨?_, ?_, ?_, ?_⟩
  · simp only [authAnonymous, if_neg hlt]
    cases userIdHeader with
    | none => rfl
    | some uid =>
      by_cases hk : (users.lookup uid).isSome
      · simp only [hk, if_pos]; rfl
      · simp only [hk, if_neg, Bool.false_eq_true, not_false_eq_true]; rfl
  · intro uid huid hk
    subst huid
    simp only [authAnonymous, if_neg hlt, hk, if_pos]
  · intro huid
    subst huid
    simp only [authAnonymous, if_neg hlt]
  · intro uid huid hk
    subst huid
    simp only [authAnonymous, if_neg hlt, hk]
    simp

/-- C9 (witness): the amended theorem at a concrete fresh registration. -/
theorem authAnonymous_characterization_witness :
    (authAnonymous [] none (some "alice") "fresh-1").isOk = true ∧
    authAnonymous [] none (some "alice") "fresh-1"
      = .ok ([("fresh-1", jsTrim "alice")], "fresh-1", jsTrim "alice") :=
  ⟨(authAnonymous_characterization [] none "alice" "fresh-1" (by decide)).1,
   (authAnonymous_characterization [] none "alice" "fresh-1" (by decide)).2.2.1 rfl⟩

/-- C10: room-code matching at the join interface is case-insensitive.
Live room codes are upper-case (the generator upper-cases its base-36
output), which `hupper` records.  A supplied code equal to the live code
up to letter case — equivalently, equal after upper-casing — addresses the
room; any code differing in a character after upper-casing fails the
lookup (room not found). -/
theorem joinLookup_case_insensitive (code cand : String) (r : Room)
    (hupper : jsToUpper code = code) :
    (jsToUpper cand = jsToUpper code → joinLookup [(code, r)] cand = some r) ∧
    (jsToUpper cand ≠ jsToUpper code → joinLookup [(code, r)] cand = none) := by
  constructor
  · intro hcase
    have hkey : code = jsToUpper cand := by rw [hcase, hupper]
    simp [joinLookup, List.find?, hkey]
  · intro hcase
    have hkey : ¬ code = jsToUpper cand := by
      intro hc
      exact hcase (by rw [← hc, hupper])
    simp [joinLookup, List.find?, hkey]

/-- C10 (witness): the theorem at a concrete live code "AB12CD", a
lower-case variant of it, and a code differing in the last character. -/
theorem joinLookup_case_insensitive_witness :
    joinLookup [("AB12CD", roomC1)] "ab12cd" = some roomC1 ∧
    joinLookup [("AB12CD", roomC1)] "ab12ce" = none :=
  ⟨(joinLookup_case_insensitive "AB12CD" "ab12cd" roomC1 (by decide)).1 (by decide),
   (joinLookup_case_insensitive "AB12CD" "ab12ce" roomC1 (by decide)).2 (by decide)⟩

/-- C4 (counterexample): the `part_000` start endpoint rejects only
`status == playing`, so a finished room with two players and the host
requesting is started again — contradicting "a finished room can never be
restarted" / "InvalidState if status != waiting". -/
theorem startGameP0_restarts_finished_room :
    roomLC4.status = .finished ∧
    (startGameP0 roomLC4 "u1" [qL1] 9).toOption.map RoomL.status
      = some Status.playing := by
  refine ⟨rfl, rfl⟩

/-- C4 (amended): the `startGame` handler of `app.js` behaves as the claim
states — not-host, then fewer than two players, then non-waiting status
are rejected in that order (so a finished room can never be restarted
there), and a host request on a waiting two-player room always starts
round 1 at question index 0 with every score and answered-flag reset and
the received answers cleared.  The `part_000` variant diverges: it rejects
only `status == playing`, so a finished room can be restarted (and scores
are not reset); see the counterexample. -/
theorem startGame_characterization (r : Room) (uid : String) (now tid : Nat) :
    (r.hostId ≠ some uid →
      startGame r uid now tid = .error "Only the host can start the game.") ∧
    (r.hostId = some uid → r.players.length < 2 →
      startGame r uid now tid = .error "Need at least 2 players to start the game.") ∧
    (r.hostId = some uid → 2 ≤ r.players.length → r.status ≠ .waiting →
      startGame r uid now tid = .error "Game has already started or finished.") ∧
    (∀ r2, startGame r uid now tid = .ok r2 →
      r.hostId = some uid ∧ 2 ≤ r.players.length ∧ r.status = .waiting ∧
      r2.status = .playing ∧ r2.currentRound = 1 ∧ r2.currentQuestionIndex = 0 ∧
      r2.answersReceived = [] ∧ r2.roundStartTime = some now ∧
      r2.players = r.players.map
        (fun p => { p with score := 0, hasAnsweredCurrentRound := false })) ∧
    (r.hostId = some uid → 2 ≤ r.players.length → r.status = .waiting →
      (startGame r uid now tid).isOk = true) := by
  refine ⟨?_, ?_, ?_, ?_, ?_⟩
  · intro hh
    simp [startGame, hh]
  · intro hh hlen
    simp [startGame, hh, hlen]
  · intro hh hlen hst
    rw [startGame, if_neg (by simp [hh]), if_neg (Nat.not_lt.mpr hlen), if_pos hst]
  · intro r2 hok
    rw [startGame] at hok
    split at hok
    · exact absurd hok (by simp)
    · split at hok
      · exact absurd hok (by simp)
      · split at hok
        · exact absurd hok (by simp)
        · rename_i hh hlen hst
          injection hok with hok
          subst hok
          refine ⟨by simpa using hh, by omega, by simpa using hst,
            rfl, rfl, rfl, rfl, rfl, rfl⟩
  · intro hh hlen hst
    rw [startGame, if_neg (by simp [hh]), if_neg (Nat.not_lt.mpr hlen),
      if_neg (by simp [hst])]
    rfl

/-- C4 (witness): the amended theorem at a waiting two-player room started
by its host. -/
theorem startGame_characterization_witness :
    (startGame wRoom4 "u1" 7 0 = .ok { wRoom4 with
        status := .playing, currentRound := 1, currentQuestionIndex := 0,
        roundStartTime := some 7, answersReceived := [],
        players := wRoom4.players.map
          (fun p => { p with score := 0, hasAnsweredCurrentRound := false }),
        roundTimerId := some 0 }) ∧
    (startGame wRoom4 "u1" 7 0).isOk = true :=
  ⟨rfl, (startGame_characterization wRoom4 "u1" 7 0).2.2.2.2 rfl (by decide) rfl⟩

/-- C7 (counterexample): the `part_000` leave endpoint removes a player
from a playing two-player room and leaves the room playing with a single
player — it never forces the status to finished. -/
theorem leaveRoomP0_keeps_playing_status :
    roomLC7.status = .playing ∧ roomLC7.players.length = 2 ∧
    (leaveRoomP0 roomLC7 "u2").map RoomL.status = some Status.playing ∧
    (leaveRoomP0 roomLC7 "u2").map (fun r => r.players.length) = some 1 := by
  refine ⟨rfl, rfl, rfl, rfl⟩

/-- C7 (amended): the `leaveRoom` handler of `app.js` (and the identical
per-room disconnect handling) behaves as the claim states: the player is
removed; an emptied room is deleted and `roomDeleted` is broadcast;
otherwise a departing host is replaced by the earliest-joined remaining
player (the head of the join-ordered list, deterministically), a playing
room with fewer than two remaining players is forced to finished, and the
pending round timer is cancelled (`roundStartTime` itself is left as it
was).  The `part_000` leave endpoint diverges on the forced finish; see
the counterexample. -/
theorem leaveRoom_characterization (r : Room) (uid : String)
    (hmem : r.players.any (fun p => p.id = uid) = true) :
    ((r.players.eraseP (fun p => p.id = uid)).length = 0 →
      leaveRoom r uid
        = (none, [.roomDeleted r.roomId "Room deleted as all players left."])) ∧
    (∀ r2, (leaveRoom r uid).1 = some r2 →
      r2.players = r.players.eraseP (fun p => p.id = uid) ∧
      r2.roundTimerId = none ∧
      (r.hostId = some uid →
        r2.hostId = (r.players.eraseP (fun p => p.id = uid)).head?.map
          (fun p => p.id)) ∧
      (r.hostId ≠ some uid → r2.hostId = r.hostId) ∧
      (r.status = .playing →
        (r.players.eraseP (fun p => p.id = uid)).length < 2 →
        r2.status = .finished) ∧
      (leaveRoom r uid).2 = [.roomState]) := by
  constructor
  · intro hempty
    rw [leaveRoom, if_pos hmem, if_pos hempty]
  · intro r2 hr2
    rw [leaveRoom, if_pos hmem] at hr2
    by_cases hempty : (r.players.eraseP (fun p => p.id = uid)).length = 0
    · simp only [if_pos hempty] at hr2
      exact absurd hr2 (by simp)
    · simp only [if_neg hempty, Option.some.injEq] at hr2
      subst hr2
      refine ⟨rfl, rfl, ?_, ?_, ?_, ?_⟩
      · intro hh
        simp [hh]
      · intro hh
        simp [hh]
      · intro hst hlen
        simp [hst, hlen]
      · rw [leaveRoom, if_pos hmem, if_neg hempty]

/-- C7 (witness): the amended theorem at the playing two-player room
`roomC1` whose host leaves: the remaining player becomes host, the room is
forced to finished, the timer is cleared. -/
theorem leaveRoom_characterization_witness :
    wRoom7after.players = roomC1.players.eraseP (fun p => p.id = "u1") ∧
    wRoom7after.roundTimerId = none ∧
    wRoom7after.status = .finished ∧
    (leaveRoom roomC1 "u1").2 = [.roomState] := by
  have h := (leaveRoom_characterization roomC1 "u1" (by decide)).2 wRoom7after
    (by decide)
  exact ⟨h.1, h.2.1, h.2.2.2.2.1 rfl (by decide), h.2.2.2.2.2⟩

/-- C5: the `submitAnswer` handler of `app.js` rejects a submission
exactly when the room is not playing, the supplied round number differs
from the current round, the user is not a player of the room, or the
player has already answered the current round; on every rejection the
room state is left unchanged (so nothing is buffered for a later round)
and no score is returned.  The hypothesis `hq` restricts to rooms whose
current question exists whenever they are playing, which holds for every
room the server builds; `app.js` reports the first two conditions through
one shared error message and the other two through their own messages. -/
theorem submitAnswer_reject_iff (r : Room) (uid : String) (round : Nat)
    (ans : String) (now : Nat)
    (hq : (questionAt r).isSome = true ∨ r.status ≠ .playing) :
    ((submitAnswer r uid round ans now).2.2.isSome = true ↔
      (r.status ≠ .playing ∨ round ≠ r.currentRound ∨
       r.players.find? (fun p => p.id = uid) = none ∨
       (r.players.find? (fun p => p.id = uid)).map Player.hasAnsweredCurrentRound
         = some true)) ∧
    ((submitAnswer r uid round ans now).2.2.isSome = true →
      (submitAnswer r uid round ans now).1 = r ∧
      (submitAnswer r uid round ans now).2.1 = none) := by
  by_cases hguard : r.status ≠ .playing ∨ r.currentRound ≠ round
  · have hval : submitAnswer r uid round ans now
        = (r, none, some "Cannot submit answers for this round/game state.") := by
      rw [submitAnswer, if_pos hguard]
    rw [hval]
    refine ⟨⟨fun _ => ?_, fun _ => rfl⟩, fun _ => ⟨rfl, rfl⟩⟩
    rcases hguard with hst | hrd
    · exact Or.inl hst
    · exact Or.inr (Or.inl (Ne.symm hrd))
  · have hsr := hguard
    push_neg at hsr
    obtain ⟨hst, hrd⟩ := hsr
    cases hfind : r.players.find? (fun p => p.id = uid) with
    | none =>
      have hval : submitAnswer r uid round ans now
          = (r, none, some "Player not found in room.") := by
        rw [submitAnswer, if_neg hguard, hfind]
      rw [hval]
      refine ⟨⟨fun _ => Or.inr (Or.inr (Or.inl rfl)), fun _ => rfl⟩,
        fun _ => ⟨rfl, rfl⟩⟩
    | some p =>
      by_cases hans : p.hasAnsweredCurrentRound
      · have hval : submitAnswer r uid round ans now
            = (r, none, some "You have already submitted an answer for this question.") := by
          rw [submitAnswer, if_neg hguard, hfind]
          simp [hans]
        rw [hval]
        refine ⟨⟨fun _ => ?_, fun _ => rfl⟩, fun _ => ⟨rfl, rfl⟩⟩
        exact Or.inr (Or.inr (Or.inr (by simp [hans])))
      · have hqs : (questionAt r).isSome = true := by
          rcases hq with h | h
          · exact h
          · exact absurd hst h
        cases hqa : questionAt r with
        | none => rw [hqa] at hqs; exact absurd hqs (by simp)
        | some q =>
          have hval : (submitAnswer r uid round ans now).2.2 = none := by
            rw [submitAnswer, if_neg hguard, hfind]
            simp [hans, hqa]
          refine ⟨⟨fun hcontra => ?_, fun hcond => ?_⟩, fun hcontra => ?_⟩
          · rw [hval] at hcontra
            exact absurd hcontra (by simp)
          · rcases hcond with h | h | h | h
            · exact absurd hst h
            · exact absurd hrd.symm h
            · exact absurd h (by simp)
            · simp only [Option.map_some', Option.some.injEq] at h
              exact absurd h hans
          · rw [hval] at hcontra
            exact absurd hcontra (by simp)

/-- C5 (witness): a submission against the waiting room `wRoom5` is
rejected and leaves the room unchanged with no score returned. -/
theorem submitAnswer_reject_iff_witness :
    (submitAnswer wRoom5 "u1" 1 "paris" 0).2.2.isSome = true ∧
    (submitAnswer wRoom5 "u1" 1 "paris" 0).1 = wRoom5 ∧
    (submitAnswer wRoom5 "u1" 1 "paris" 0).2.1 = none := by
  have h := submitAnswer_reject_iff wRoom5 "u1" 1 "paris" 0 (Or.inr (by decide))
  have hrej : (submitAnswer wRoom5 "u1" 1 "paris" 0).2.2.isSome = true :=
    h.1.mpr (Or.inl (by decide))
  exact ⟨hrej, (h.2 hrej).1, (h.2 hrej).2⟩

/-- C2: when the last not-yet-answered player (`p2`) of a playing
two-player room submits an answer for the current round, the round
advances immediately inside the handler — `currentRound` is incremented
exactly once and a fresh timer id is armed — without waiting for the
round duration.  `moveToNextQuestion` cancels the pending timer (id
`told`) before advancing, so that timer can never fire again; a callback
racing in for the already-advanced round (modelled by `timerFire` with
the stale id) changes nothing, and a callback against a deleted room is
likewise a no-op. -/
theorem allAnswered_fast_path (s : Sched) (r : Room) (p1 p2 : Player)
    (uid : String) (round : Nat) (answer : String) (now : Nat) (q : Question)
    (told : Nat)
    (hs : s.room = some r)
    (hst : r.status = .playing)
    (hrd : r.currentRound = round)
    (hps : r.players = [p1, p2])
    (h1 : p1.hasAnsweredCurrentRound = true)
    (h2 : p2.hasAnsweredCurrentRound = false)
    (hid : p2.id = uid)
    (hne : ¬ p1.id = uid)
    (hq : questionAt r = some q)
    (ht : r.roundTimerId = some told)
    (hfresh : told < s.fresh)
    (hbound : r.currentQuestionIndex + 1 < (r.questions.length : Int))
    (hmax : r.currentRound < r.maxRounds) :
    ((submitAnswerOn s uid round answer now).1.room.map Room.currentRound
        = some (r.currentRound + 1)) ∧
    ((submitAnswerOn s uid round answer now).1.room.map Room.roundTimerId
        = some (some s.fresh)) ∧
    (timerFire (submitAnswerOn s uid round answer now).1 told now
        = (submitAnswerOn s uid round answer now).1) ∧
    (timerFire { room := none, fresh := s.fresh } told now
        = { room := none, fresh := s.fresh }) := by
  obtain ⟨sr, sf⟩ := s
  change sr = some r at hs
  subst hs
  change told < sf at hfresh
  have hguard : ¬ (r.status ≠ .playing ∨ r.currentRound ≠ round) := by
    simp [hst, hrd]
  have hfind : r.players.find? (fun p => p.id = uid) = some p2 := by
    rw [hps]
    simp [List.find?, hne, hid]
  have hsub : submitAnswer r uid round answer now
      = ({ r with
            players := setPlayerAnswered r.players uid
              (if answer = q.correctAnswer then 1 else 0),
            answersReceived := putAnswer r.answersReceived uid
              { answer := answer,
                score := (if answer = q.correctAnswer then 1 else 0),
                timestamp := now } },
          some (if answer = q.correctAnswer then 1 else 0), none) := by
    rw [submitAnswer, if_neg hguard, hfind]
    simp [h2, hq]
  have hset : setPlayerAnswered r.players uid
      (if answer = q.correctAnswer then 1 else 0)
      = [p1, { p2 with
          score := p2.score + (if answer = q.correctAnswer then 1 else 0),
          hasAnsweredCurrentRound := true }] := by
    rw [hps]
    simp [setPlayerAnswered, hne, hid]
  have hfinal : submitAnswerOn ⟨some r, sf⟩ uid round answer now
      = (({ room := some (advancedRoom r
              (setPlayerAnswered r.players uid
                (if answer = q.correctAnswer then 1 else 0)) now sf),
            fresh := sf + 1 } : Sched),
          some (if answer = q.correctAnswer then 1 else 0), none) := by
    simp only [submitAnswerOn, hsub]
    rw [hset]
    simp [h1, moveToNextQuestion, hbound, hmax, advancedRoom]
  rw [hfinal]
  refine ⟨rfl, rfl, ?_, rfl⟩
  rw [timerFire]
  simp only [advancedRoom, Option.some.injEq]
  rw [if_neg (by omega)]

/-- C2 (witness): the fast-path theorem at the concrete mid-game room
`wRoom2` whose second player submits the last missing answer: the round
advances to 2, timer id 1 is armed, and firing the stale timer id 0 (or
firing against a deleted room) changes nothing. -/
theorem allAnswered_fast_path_witness :
    ((submitAnswerOn wS2 "u2" 1 "Mars" 9).1.room.map Room.currentRound
        = some (wRoom2.currentRound + 1)) ∧
    ((submitAnswerOn wS2 "u2" 1 "Mars" 9).1.room.map Room.roundTimerId
        = some (some wS2.fresh)) ∧
    (timerFire (submitAnswerOn wS2 "u2" 1 "Mars" 9).1 0 9
        = (submitAnswerOn wS2 "u2" 1 "Mars" 9).1) ∧
    (timerFire { room := none, fresh := wS2.fresh } 0 9
        = { room := none, fresh := wS2.fresh }) :=
  allAnswered_fast_path wS2 wRoom2 annAnswered bobP "u2" 1 "Mars" 9 q1 0
    rfl rfl rfl rfl rfl rfl rfl (by decide) (by decide) rfl
    (by decide) (by decide) (by decide)

/-- Helper: an element not matched by the predicate survives `eraseP`. -/
theorem mem_eraseP_of_not (l : List Player) (pr : Player → Bool) (x : Player)
    (hx : x ∈ l) (hpx : pr x = false) : x ∈ l.eraseP pr := by
  induction l with
  | nil => cases hx
  | cons a t ih =>
    rw [List.eraseP_cons]
    cases hpa : pr a with
    | true =>
      simp only [hpa, cond_true]
      rcases List.mem_cons.mp hx with hax | hxt
      · subst hax; rw [hpa] at hpx; cases hpx
      · exact hxt
    | false =>
      simp only [hpa, cond_false]
      rcases List.mem_cons.mp hx with hax | hxt
      · subst hax; exact List.mem_cons_self ..
      · exact List.mem_cons_of_mem _ (ih hxt)

/-- Helper: `joinRoom` preserves the per-room invariant. -/
theorem joinRoom_inv (r : Room) (uid un : String)
    (h : RoomInv (some r)) : RoomInv (some (joinRoom r uid un)) := by
  obtain ⟨hlen, hne, hh⟩ := h
  rw [joinRoom]
  split
  · exact ⟨hlen, hne, hh⟩
  · split
    · exact ⟨hlen, hne, hh⟩
    · split
      · exact ⟨hlen, hne, hh⟩
      · rename_i hfull hst
        refine ⟨?_, by simp, ?_⟩
        · simp only [List.length_append, List.length_cons, List.length_nil]
          omega
        · obtain ⟨i, hi, hmem⟩ := hh
          exact ⟨i, hi, by simp only [List.map_append, List.mem_append]; exact Or.inl hmem⟩

/-- Helper: `leaveRoom` preserves the per-room invariant. -/
theorem leaveRoom_inv (r : Room) (uid : String)
    (h : RoomInv (some r)) : RoomInv ((leaveRoom r uid).1) := by
  obtain ⟨hlen, hne, hh⟩ := h
  rw [leaveRoom]
  by_cases hmem : r.players.any (fun p => p.id = uid) = true
  · rw [if_pos hmem]
    by_cases hempty : (r.players.eraseP (fun p => p.id = uid)).length = 0
    · simp only [if_pos hempty]
      trivial
    · simp only [if_neg hempty]
      refine ⟨?_, ?_, ?_⟩
      · calc (r.players.eraseP (fun p => p.id = uid)).length
            ≤ r.players.length := List.length_eraseP_le ..
          _ ≤ 2 := hlen
      · show r.players.eraseP (fun p => p.id = uid) ≠ []
        intro hcontra
        rw [hcontra] at hempty
        exact hempty rfl
      · by_cases hhost : r.hostId = some uid
        · rw [if_pos hhost]
          cases herase : r.players.eraseP (fun p => p.id = uid) with
          | nil =>
            rw [herase] at hempty
            exact absurd rfl hempty
          | cons p0 rest =>
            refine ⟨p0.id, rfl, ?_⟩
            show p0.id ∈ (p0 :: rest).map (fun p => p.id)
            simp
        · rw [if_neg hhost]
          obtain ⟨i, hi, himem⟩ := hh
          obtain ⟨e, hemem, heid⟩ := List.mem_map.mp himem
          have hiu : i ≠ uid := by
            intro hcontra
            rw [hcontra] at hi
            exact hhost hi
          refine ⟨i, hi, ?_⟩
          have hepred : (fun p => decide (p.id = uid)) e = false := by
            simp only [decide_eq_false_iff_not]
            rw [heid]
            exact hiu
          exact List.mem_map.mpr ⟨e, mem_eraseP_of_not _ _ e hemem hepred, heid⟩
  · rw [if_neg hmem]
    exact ⟨hlen, hne, hh⟩

/-- Helper: one step of any create/join/leave/disconnect action preserves
the per-room invariant. -/
theorem stepOp_inv (s : Option Room) (op : Op) (h : RoomInv s) :
    RoomInv (stepOp s op) := by
  cases op with
  | create uid un provider =>
    cases s with
    | some r => exact h
    | none =>
      rw [stepOp]
      cases hc : createRoom (some uid) (some un) (some "easy") provider "ROOM01" with
      | error e => trivial
      | ok r =>
        simp only [createRoom] at hc
        split at hc
        · exact absurd hc (by simp)
        · injection hc with hc
          subst hc
          exact ⟨by simp, by simp, ⟨uid, rfl, by simp⟩⟩
  | join uid un =>
    cases s with
    | some r => exact joinRoom_inv r uid un h
    | none => trivial
  | leave uid =>
    cases s with
    | some r => exact leaveRoom_inv r uid h
    | none => trivial
  | disconnect uid =>
    cases s with
    | some r => exact leaveRoom_inv r uid h
    | none => trivial

/-- C6: every room slot reachable by any sequence of create, join, leave
and disconnect actions satisfies the invariant: a live room never holds
more than two players, never zero (an emptied room is deleted, not kept
with a null host), and its `hostId` is always the id of a current
player. -/
theorem room_invariant_reachable (ops : List Op) : RoomInv (runOps ops) := by
  rw [runOps]
  have hgen : ∀ s, RoomInv s → RoomInv (ops.foldl stepOp s) := by
    induction ops with
    | nil => intro s hs; exact hs
    | cons op t ih =>
      intro s hs
      rw [List.foldl_cons]
      exact ih _ (stepOp_inv s op hs)
  exact hgen none trivial

/-- C6 (witness): the invariant holds after a concrete create, join,
leave sequence. -/
theorem room_invariant_reachable_witness :
    RoomInv (runOps [Op.create "u1" "ann" (some [q1]), Op.join "u2" "bob",
      Op.leave "u1"]) :=
  room_invariant_reachable
    [Op.create "u1" "ann" (some [q1]), Op.join "u2" "bob", Op.leave "u1"]

end Quiz
